import Mathlib

/-!
# Verification of the vs-average multi-source pixel aggregation core

Shallow embedding of the aggregation engine of the vs-average VapourSynth
plugin (`src/lib.rs`, `src/mean.rs`, `src/median.rs`, `src/common.rs`),
together with theorems settling the specification claims about it.

Modelling conventions:

* Machine integers are modelled as `ℕ` with explicit `% 2 ^ w` at the points
  where the Rust code can wrap (release-mode unsigned overflow wraps) or
  truncate (an `as` cast to a narrower unsigned type keeps the low bits).
* The IEEE `f64` canonical domain of the engine is modelled by exact
  rationals `ℚ`, following the specification, which describes it as a
  "real-valued canonical domain"; IEEE rounding is idealized away.
* Per-pixel kernels are modelled directly: every function of the engine
  computes each output sample from the column of source samples at the same
  coordinate, so a per-pixel function plus the plane driver model (below)
  covers the whole frame computation.
* `sort_unstable` on numeric keys is modelled by `List.insertionSort (· ≤ ·)`:
  for a total order on numbers every comparison sort produces the same list.
-/

namespace VSAverage

/-- One pixel of the `mean_int!` macro of `src/mean.rs` (lines 36-66),
instantiated by `mean_u8(u8, u16)`, `mean_u16(u16, u32)`, `mean_u32(u32, u64)`.
The source samples are cast to the `$internal` unsigned width and summed there
(`let sum: $internal = ...sum()`, wrapping on overflow, hence `% 2 ^ internal`),
divided by the source count cast into the same width
(`sum / src_frames.len() as $internal` — the cast wraps too, hence the
`% 2 ^ internal` on the divisor; when it wraps all the way to zero the Rust
division panics, where this total model returns 0 — the theorems below keep
the count below the width), and cast back to `$depth` (`as $depth`, keeping
the low bits, hence `% 2 ^ depth`). -/
def mean_int_pixel (depth internal : ℕ) (values : List ℕ) : ℕ :=
  ((values.sum % 2 ^ internal) / (values.length % 2 ^ internal)) % 2 ^ depth

/-- `mean_u8` from `mean_int! { mean_u8(u8, u16); ... }`, per pixel. -/
def mean_u8_pixel : List ℕ → ℕ := mean_int_pixel 8 16

/-- `mean_u16` from `mean_int! { mean_u16(u16, u32); ... }`, per pixel. -/
def mean_u16_pixel : List ℕ → ℕ := mean_int_pixel 16 32

/-- `mean_u32` from `mean_int! { mean_u32(u32, u64); ... }`, per pixel. -/
def mean_u32_pixel : List ℕ → ℕ := mean_int_pixel 32 64

/-- Modelled from the spec: the function `ultra_pepega` (the Partial Selector,
spec section 4.2) is called by `mean_int_discard!` and `mean_float_discard`
but its definition is not among the sources.  The spec requires that after the
call the `discard` largest and `discard` smallest values are isolated at the
tail, so that the drained prefix `values.drain(0..len - discard*2)` is exactly
the multiset that remains after removing the `discard` largest and the
`discard` smallest values.  We model that drained remainder directly: sort
ascending, drop the `discard` smallest, and keep the next
`len - 2 * discard` values (cutting off the `discard` largest). -/
def trim_drain (values : List ℕ) (discard : ℕ) : List ℕ :=
  ((values.insertionSort (· ≤ ·)).drop discard).take (values.length - 2 * discard)

/-- One pixel of the `mean_int_discard!` macro of `src/mean.rs` (lines 68-103):
collect the samples at the coordinate, run the selector, sum the drained
remainder in the `$internal` width (wrapping), divide by
`(src_frames.len() - discard * 2) as $internal` (the cast wraps, hence the
`% 2 ^ internal` on the divisor; a divisor that wraps to zero panics in
Rust, where this total model returns 0 — the theorems below keep the
retained count below the width), cast back to `$depth`. -/
def mean_int_discard_pixel (depth internal : ℕ) (values : List ℕ) (discard : ℕ) : ℕ :=
  (((trim_drain values discard).sum % 2 ^ internal) /
    ((values.length - 2 * discard) % 2 ^ internal)) % 2 ^ depth

/-- `mean_u8_discard` from `mean_int_discard!`, per pixel. -/
def mean_u8_discard_pixel : List ℕ → ℕ → ℕ := mean_int_discard_pixel 8 16

/-- One pixel of `Mean::mean_float` of `src/mean.rs` (lines 189-215) in the
rational model of `f64`: `let reciprocal = 1.0 / src_frames.len() as f64` and
`sum * reciprocal`.  The `to_f64`/`from_f64` conversions of the missing
`F64Convertible` trait are the identity in this model (spec section 4.1:
float samples convert losslessly between `f16`/`f32` and the canonical
double domain). -/
def mean_float_pixel (values : List ℚ) : ℚ :=
  values.sum * (1 / (values.length : ℚ))

/-- Modelled from the spec: the rational-valued drained remainder of the
Partial Selector, as used by `Mean::mean_float_discard`; see `trim_drain`. -/
def trim_drain_q (values : List ℚ) (discard : ℕ) : List ℚ :=
  ((values.insertionSort (· ≤ ·)).drop discard).take (values.length - 2 * discard)

/-- One pixel of `Mean::mean_float_discard` of `src/mean.rs` (lines 156-187):
selector, then `sum * reciprocal` with
`reciprocal = 1.0 / (src_frames.len() - discard * 2) as f64`. -/
def mean_float_discard_pixel (values : List ℚ) (discard : ℕ) : ℚ :=
  (trim_drain_q values discard).sum * (1 / ((values.length - 2 * discard : ℕ) : ℚ))

/-- The median value `median_int!` of `src/median.rs` (lines 15-56) computes
from the current contents of its `values` buffer: the contents are cast to
`$internal`, sorted ascending (`sort_unstable`); an odd count takes
`values[(len - 1) >> 1]`, an even count takes
`(values[middle - 1] + values[middle]) >> 1` with `middle = len >> 1`, the
addition performed in the `$internal` width (wrapping); the result is cast
back to `$depth`.  NOTE: unlike `mean_int_discard!`, the macro never clears
`values` between pixels — the only `set_len(0)` (line 50) clears `src_rows`
— so the buffer holds the current column only at the very first pixel; from
then on it accumulates every column seen so far (see `median_int_row`). -/
def median_int_pixel (depth internal : ℕ) (values : List ℕ) : ℕ :=
  let s := values.insertionSort (· ≤ ·)
  let data :=
    if s.length % 2 = 1 then
      s.getD ((s.length - 1) / 2) 0
    else
      ((s.getD (s.length / 2 - 1) 0 + s.getD (s.length / 2) 0) % 2 ^ internal) / 2
  data % 2 ^ depth

/-- The median value `Median::median_float` of `src/median.rs` (lines 62-97)
computes from the current contents of its `values` buffer, in the rational
model of `f64`: sort ascending, middle element for an odd count,
`(values[middle - 1] + values[middle]) / 2.0` for an even count.  Like
`median_int!`, the buffer is never cleared between pixels (only `src_rows`
is, line 94); see `median_float_row`. -/
def median_float_pixel (values : List ℚ) : ℚ :=
  let s := values.insertionSort (· ≤ ·)
  if s.length % 2 = 1 then
    s.getD ((s.length - 1) / 2) 0
  else
    (s.getD (s.length / 2 - 1) 0 + s.getD (s.length / 2) 0) / 2

/-- The output pixels `median_int!` actually writes, given the per-pixel
source columns in scan order: the `values` buffer is filled with
`values.extend(...)` at every pixel and never cleared (the in-place
`sort_unstable` between pixels does not change its multiset of contents),
so the pixel at index `i` is the median of the concatenation of columns
`0..=i`.  The accumulation continues across rows and planes as well, since
the buffer lives for the whole frame call; a scan-ordered column list models
any such span. -/
def median_int_row (depth internal : ℕ) (columns : List (List ℕ)) : List ℕ :=
  (List.range columns.length).map fun i =>
    median_int_pixel depth internal ((columns.take (i + 1)).flatten)

/-- The output pixels `Median::median_float` actually writes, given the
per-pixel source columns in scan order; same never-cleared accumulation as
`median_int_row`. -/
def median_float_row (columns : List (List ℚ)) : List ℚ :=
  (List.range columns.length).map fun i =>
    median_float_pixel ((columns.take (i + 1)).flatten)

/- ### Helper lemmas -/

/-- The sum of a non-empty list of naturals all below a bound `b` is below
`length * b`. -/
theorem sum_lt_length_mul {values : List ℕ} {b : ℕ} (hne : values ≠ [])
    (hbound : ∀ v ∈ values, v < b) :
    values.sum < values.length * b := by
  induction values with
  | nil => exact absurd rfl hne
  | cons a t ih =>
    simp only [List.sum_cons, List.length_cons]
    rcases eq_or_ne t [] with rfl | hne2
    · simpa using hbound a (by simp)
    · have ht := ih hne2 fun v hv => hbound v (by simp [hv])
      have ha := hbound a (by simp)
      calc a + t.sum < b + t.length * b := by omega
      _ = (t.length + 1) * b := by ring

/-- The sum of a list of naturals all below a bound `b`, divided by the list
length, stays below `b` (truncating division). -/
theorem sum_div_length_lt {values : List ℕ} {b : ℕ} (hne : values ≠ [])
    (hbound : ∀ v ∈ values, v < b) :
    values.sum / values.length < b := by
  have hlen : 0 < values.length := List.length_pos.mpr hne
  rw [Nat.div_lt_iff_lt_mul hlen]
  calc values.sum < values.length * b := sum_lt_length_mul hne hbound
  _ = b * values.length := Nat.mul_comm _ _

/-- Membership in the drained remainder implies membership in the original
value list. -/
theorem mem_of_mem_trim_drain {values : List ℕ} {discard v : ℕ}
    (hv : v ∈ trim_drain values discard) : v ∈ values := by
  unfold trim_drain at hv
  have h1 := List.mem_of_mem_take hv
  have h2 := List.mem_of_mem_drop h1
  exact (List.perm_insertionSort (· ≤ ·) values).mem_iff.mp h2

/-- Length of the drained remainder: `len - 2 * discard` whenever
`2 * discard ≤ len`. -/
theorem trim_drain_length {values : List ℕ} {discard : ℕ}
    (h : 2 * discard ≤ values.length) :
    (trim_drain values discard).length = values.length - 2 * discard := by
  unfold trim_drain
  rw [List.length_take, List.length_drop, List.length_insertionSort]
  omega

/-- The original values are a permutation of: the `discard` smallest, the
drained remainder, and the `discard` largest (sorted order decomposition). -/
theorem trim_drain_perm (values : List ℕ) (discard : ℕ)
    (h : 2 * discard ≤ values.length) :
    values.Perm
      (((values.insertionSort (· ≤ ·)).take discard)
        ++ trim_drain values discard
        ++ ((values.insertionSort (· ≤ ·)).drop (values.length - discard))) := by
  have hsorted := List.perm_insertionSort (· ≤ ·) values
  set s := values.insertionSort (· ≤ ·) with hs
  have hslen : s.length = values.length := List.length_insertionSort _ _
  have hdecomp : s = s.take discard ++ trim_drain values discard ++ s.drop (values.length - discard) := by
    unfold trim_drain
    rw [← hs]
    conv_lhs => rw [← List.take_append_drop discard s]
    rw [List.append_assoc]
    congr 1
    conv_lhs => rw [← List.take_append_drop (values.length - 2 * discard) (s.drop discard)]
    congr 1
    rw [List.drop_drop]
    congr 1
    omega
  calc values.Perm s := hsorted.symm
  _ = _ := hdecomp

/- ### C1: plain (unweighted) arithmetic mean -/

/-- C1 (amended): for a non-empty list of source samples, each below the
output depth range, whose total fits the internal accumulator width
(`u16`/`u32`/`u64` in the three macro instantiations) and whose count also
stays below that width (so the divisor cast `src_frames.len() as $internal`
does not wrap), the `Plain` mode output pixel of `mean_int!` equals the
truncating arithmetic mean `sum / count`; in the rational model the float
path `Mean::mean_float` equals `sum / count` without any restriction.  The
original claim, quantified over every number of sources, fails because the
internal accumulator wraps: see the counterexample. -/
theorem c1_plain_mean_amended (depth internal : ℕ) (values : List ℕ)
    (hne : values ≠ []) (hbound : ∀ v ∈ values, v < 2 ^ depth)
    (hnoov : values.sum < 2 ^ internal)
    (hcount : values.length < 2 ^ internal) :
    mean_int_pixel depth internal values = values.sum / values.length ∧
    ∀ qs : List ℚ, qs ≠ [] → mean_float_pixel qs = qs.sum / (qs.length : ℚ) := by
  constructor
  · unfold mean_int_pixel
    rw [Nat.mod_eq_of_lt hnoov, Nat.mod_eq_of_lt hcount]
    exact Nat.mod_eq_of_lt (sum_div_length_lt hne hbound)
  · intro qs _
    unfold mean_float_pixel
    rw [mul_one_div]

set_option maxRecDepth 16000 in
/-- C1 counterexample: with 258 8-bit sources of value 255 the `u16`
accumulator of `mean_u8` wraps (255 · 258 = 65790 ≡ 254 mod 2¹⁶) and the
written pixel is 254 / 258 = 0, not the arithmetic mean 255. -/
theorem c1_plain_mean_counterexample :
    mean_u8_pixel (List.replicate 258 255) = 0 ∧
    (List.replicate 258 255).sum / (List.replicate 258 255).length = 255 ∧
    mean_u8_pixel (List.replicate 258 255) ≠
      (List.replicate 258 255).sum / (List.replicate 258 255).length := by
  refine ⟨by decide, by decide, by decide⟩

/-- C1 witness: the amended theorem applied to the spec's own example, three
8-bit sources `[10, 20, 30]`, yields the arithmetic mean 20. -/
theorem c1_plain_mean_witness :
    mean_int_pixel 8 16 [10, 20, 30] = [10, 20, 30].sum / [10, 20, 30].length ∧
    mean_int_pixel 8 16 [10, 20, 30] = 20 :=
  ⟨(c1_plain_mean_amended 8 16 [10, 20, 30]
      (by decide) (by decide) (by decide) (by decide)).1,
   by decide⟩

/- ### C2: symmetric trimmed mean -/

/-- C2 (amended): for `2 * discard < count`, samples below the depth range,
and a drained-remainder sum that fits the internal accumulator width, the
`Trimmed` mode output pixel of `mean_int_discard!` equals the truncating
arithmetic mean of the `count - 2 * discard` values that remain after
removing the `discard` largest and the `discard` smallest (the permutation
conjunct identifies the remainder inside a sorted-order decomposition of the
sources); in the rational model the float path `Mean::mean_float_discard`
equals the exact mean of the remainder.  The retained count must also stay
below the internal width, since the divisor cast
`(src_frames.len() - discard * 2) as $internal` wraps.  The original claim,
quantified over every source count, fails because the internal accumulator
wraps: see the counterexample. -/
theorem c2_trimmed_mean_amended (depth internal : ℕ) (values : List ℕ) (discard : ℕ)
    (hk : 2 * discard < values.length)
    (hbound : ∀ v ∈ values, v < 2 ^ depth)
    (hnoov : (trim_drain values discard).sum < 2 ^ internal)
    (hcount : values.length - 2 * discard < 2 ^ internal) :
    mean_int_discard_pixel depth internal values discard =
      (trim_drain values discard).sum / (values.length - 2 * discard) ∧
    values.Perm
      (((values.insertionSort (· ≤ ·)).take discard)
        ++ trim_drain values discard
        ++ ((values.insertionSort (· ≤ ·)).drop (values.length - discard))) ∧
    ∀ qs : List ℚ, ∀ k : ℕ,
      mean_float_discard_pixel qs k =
        (trim_drain_q qs k).sum / ((qs.length - 2 * k : ℕ) : ℚ) := by
  have hlen := trim_drain_length (le_of_lt hk)
  have hne : trim_drain values discard ≠ [] :=
    List.ne_nil_of_length_pos (by omega)
  have hb : ∀ v ∈ trim_drain values discard, v < 2 ^ depth :=
    fun v hv => hbound v (mem_of_mem_trim_drain hv)
  refine ⟨?_, trim_drain_perm values discard (le_of_lt hk), ?_⟩
  · unfold mean_int_discard_pixel
    rw [Nat.mod_eq_of_lt hnoov, Nat.mod_eq_of_lt hcount, ← hlen]
    exact Nat.mod_eq_of_lt (sum_div_length_lt hne hb)
  · intro qs k
    unfold mean_float_discard_pixel
    rw [mul_one_div]

set_option maxRecDepth 16000 in
/-- C2 counterexample: 260 8-bit sources (one 0, then 259 copies of 255) with
`discard = 1` satisfy `2 * discard < count`, yet the `u16` accumulator of
`mean_u8_discard` wraps on the 258 retained copies of 255
(255 · 258 = 65790 ≡ 254 mod 2¹⁶) and the written pixel is 254 / 258 = 0,
while the arithmetic mean of the retained values is 255. -/
theorem c2_trimmed_mean_counterexample :
    mean_u8_discard_pixel (0 :: List.replicate 259 255) 1 = 0 ∧
    (trim_drain (0 :: List.replicate 259 255) 1).sum /
      ((0 :: List.replicate 259 255).length - 2 * 1) = 255 ∧
    2 * 1 < (0 :: List.replicate 259 255).length :=
  ⟨by decide, by decide, by decide⟩

/-- C2 witness: the amended theorem applied to the spec's own example,
sources `[5, 100, 10, 20, 90]` with `discard = 1`: the remainder is
`[10, 20, 90]` and the written pixel is its mean 40. -/
theorem c2_trimmed_mean_witness :
    mean_int_discard_pixel 8 16 [5, 100, 10, 20, 90] 1 =
      (trim_drain [5, 100, 10, 20, 90] 1).sum /
        (([5, 100, 10, 20, 90] : List ℕ).length - 2 * 1) ∧
    trim_drain [5, 100, 10, 20, 90] 1 = [10, 20, 90] ∧
    mean_int_discard_pixel 8 16 [5, 100, 10, 20, 90] 1 = 40 :=
  ⟨(c2_trimmed_mean_amended 8 16 [5, 100, 10, 20, 90] 1
      (by decide) (by decide) (by decide) (by decide)).1,
   by decide, by decide⟩

/- ### C3: median -/

/-- C3 (code bug): `median_int!` and `Median::median_float` never clear the
`values` buffer — the only `set_len(0)` calls in `src/median.rs` (lines 50
and 94) clear `src_rows`, while the sibling kernels `mean_int_discard!` and
`mean_float_discard` both drain and `set_len(0)` `values` at every pixel.
So only the first pixel of a frame gets the median of its own column; every
later pixel gets the median of all columns accumulated so far.  Failing
input: one 8-bit source, one plane, one row `[10, 20]` — the code writes
`[10, 15]` (second pixel `(10 + 20) >> 1 = 15`), where the claimed
per-coordinate median of the second column `[20]` is `20`.  The claim (and
spec section 4.3) state the intended behavior; the code drops it from the
second pixel on. -/
theorem c3_median_code_bug :
    median_int_row 8 16 [[10], [20]] = [10, 15] ∧
    median_float_row [[10], [20]] = [10, 15] ∧
    median_int_pixel 8 16 [20] = 20 ∧
    (15 : ℕ) ≠ 20 := by
  refine ⟨by decide, ?_, by decide, by decide⟩
  · norm_num [median_float_row, median_float_pixel, List.range_succ,
      List.insertionSort, List.orderedInsert]

/- ### C4: category-weighted mean -/

/-- The `[f64; 3]` IPB weight triple of `Mean` (`src/mean.rs`, line 109),
in the rational model of `f64`. -/
structure Weights where
  w0 : ℚ
  w1 : ℚ
  w2 : ℚ

/-- The label byte of one source:
`f.props().get::<&[u8]>("_PictType").unwrap_or(b"U")[0]` — the first byte of
the `_PictType` frame property, defaulting to `b'U'` (85) when the property
is absent (`src/mean.rs`, line 117). -/
def pict_byte (prop : Option ℕ) : ℕ :=
  prop.getD 85

/-- The per-source weight selection of `Mean::weighted_mean`
(`src/mean.rs`, lines 118-123): `b'I' | b'i' => weights[0]`,
`b'P' | b'p' => weights[1]`, `b'B' => weights[2]`, anything else `1.0`
(byte values: I = 73, i = 105, P = 80, p = 112, B = 66). -/
def pict_weight (w : Weights) (p : ℕ) : ℚ :=
  if p = 73 ∨ p = 105 then w.w0
  else if p = 80 ∨ p = 112 then w.w1
  else if p = 66 then w.w2
  else 1

/-- One pixel of `Mean::weighted_mean` (`src/mean.rs`, lines 114-154) in the
rational model of `f64`: each source is a pair of its `_PictType` first byte
and its sample value in the canonical domain; the code computes
`reciprocal = 1.0 / weights.sum()` once and writes
`weighted_sum * reciprocal`. -/
def weighted_mean_pixel (w : Weights) (srcs : List (Option ℕ × ℚ)) : ℚ :=
  let ws := srcs.map fun s => pict_weight w (pict_byte s.1)
  let reciprocal := 1 / ws.sum
  ((((srcs.map Prod.snd).zip ws).map fun pw => pw.1 * pw.2).sum) * reciprocal

/-- C4: the weighted mean pixel equals `Σ (value · weight) / Σ weight`, where
the weight of a source is `w0` for label byte `I`/`i`, `w1` for `P`/`p`, `w2`
for `B`, and `1` for every other byte or an absent label property; on the
concrete sources `[10(I), 20(P), 30(B)]` with weights `[2,1,1]` the formula
gives `(10·2 + 20·1 + 30·1) / (2+1+1) = 35/2`. -/
theorem c4_weighted_mean (w : Weights) (srcs : List (Option ℕ × ℚ)) :
    weighted_mean_pixel w srcs =
      (srcs.map fun s => s.2 * pict_weight w (pict_byte s.1)).sum /
        (srcs.map fun s => pict_weight w (pict_byte s.1)).sum ∧
    pict_weight w 73 = w.w0 ∧ pict_weight w 105 = w.w0 ∧
    pict_weight w 80 = w.w1 ∧ pict_weight w 112 = w.w1 ∧
    pict_weight w 66 = w.w2 ∧
    (∀ p, p ≠ 73 → p ≠ 105 → p ≠ 80 → p ≠ 112 → p ≠ 66 → pict_weight w p = 1) ∧
    pict_byte none = 85 ∧
    weighted_mean_pixel ⟨2, 1, 1⟩ [(some 73, 10), (some 80, 20), (some 66, 30)] = 35 / 2 := by
  refine ⟨?_, by simp [pict_weight], by simp [pict_weight], by simp [pict_weight],
    by simp [pict_weight], by simp [pict_weight], ?_, rfl, ?_⟩
  · unfold weighted_mean_pixel
    simp only [List.zip_map', List.map_map, mul_one_div, Function.comp_def]
  · intro p h1 h2 h3 h4 h5
    simp [pict_weight, h1, h2, h3, h4, h5]
  · norm_num [weighted_mean_pixel, pict_weight, pict_byte]

/-- C4 witness: the weighted-mean theorem applied to the spec's example
sources, with the unknown-label case instantiated at byte `b` (98). -/
theorem c4_weighted_mean_witness :
    weighted_mean_pixel ⟨2, 1, 1⟩ [(some 73, 10), (some 80, 20), (some 66, 30)] = 35 / 2 ∧
    pict_weight ⟨2, 1, 1⟩ 98 = 1 :=
  ⟨(c4_weighted_mean ⟨2, 1, 1⟩ []).2.2.2.2.2.2.2.2,
   (c4_weighted_mean ⟨2, 1, 1⟩ []).2.2.2.2.2.2.1 98
     (by decide) (by decide) (by decide) (by decide) (by decide)⟩

/- ### C5 / C10: filter construction and validation (`create_mean`) -/

/-- Preset 1 of `create_mean`: `[1.82, 1.30, 1.00]` (x264/5 defaults), as
exact decimals in the rational model of `f64`. -/
def presetWeights1 : Weights := ⟨91 / 50, 13 / 10, 1⟩

/-- Preset 2 of `create_mean`: `[1.21, 1.10, 1.00]` (x264 tune grain). -/
def presetWeights2 : Weights := ⟨121 / 100, 11 / 10, 1⟩

/-- Preset 3 of `create_mean`: `[1.10, 1.00, 1.00]` (x265 tune grain). -/
def presetWeights3 : Weights := ⟨11 / 10, 1, 1⟩

/-- `true` exactly when the `Result` is `Ok`. -/
def except_ok {α : Type} (e : Except String α) : Bool :=
  match e with
  | .ok _ => true
  | .error _ => false

/-- The `create_mean` constructor of `src/lib.rs` (lines 73-110), modelled on
the `(discard, preset)` handling that decides the filter configuration.  The
clip list is abstracted by its length (`check_clips` only requires a
non-empty list of format-identical clips, and the 8..=32 depth check is
format-level; both are outside the mode validation the claims are about, and
the non-emptiness check is kept).  The Rust `match` arms are translated in
order, with a guard failure falling through to the later arms:
arm `(Some(d), Some(0)) | (Some(d), None) if d > 0 && d < (len / 2) as i64`
accepts a trimmed configuration; `(None | Some(0), Some(0) | None)` accepts
the plain configuration; `(None | Some(0), Some(1..=3))` accepts a weighted
preset; out-of-bounds discard, unknown presets, and a combined
preset + discard request fail with the corresponding error. -/
def create_mean (numClips : ℕ) (preset discard : Option ℤ) :
    Except String (Option Weights × Option ℕ) :=
  if numClips = 0 then .error "There should be at least one clip as input"
  else
    match discard, preset with
    | some d, some p =>
      if p = 0 then
        if 0 < d ∧ d < ((numClips / 2 : ℕ) : ℤ) then .ok (none, some d.toNat)
        else if d = 0 then .ok (none, none)
        else .error "discard cannot be negative, or larger than half the length of input clip list!"
      else if d = 0 then
        if p = 1 then .ok (some presetWeights1, none)
        else if p = 2 then .ok (some presetWeights2, none)
        else if p = 3 then .ok (some presetWeights3, none)
        else .error "Unknown preset! (Only 0..3 supported, see docs for more information)"
      else .error "preset and discard cannot be used simultaneously!"
    | some d, none =>
      if 0 < d ∧ d < ((numClips / 2 : ℕ) : ℤ) then .ok (none, some d.toNat)
      else if d = 0 then .ok (none, none)
      else .error "discard cannot be negative, or larger than half the length of input clip list!"
    | none, some p =>
      if p = 0 then .ok (none, none)
      else if p = 1 then .ok (some presetWeights1, none)
      else if p = 2 then .ok (some presetWeights2, none)
      else if p = 3 then .ok (some presetWeights3, none)
      else .error "Unknown preset! (Only 0..3 supported, see docs for more information)"
    | none, none => .ok (none, none)

/-- C5 (amended): with at least one clip and no weighting preset requested
(`preset` absent or 0), construction accepts a requested discard `d` exactly
when `d = 0` or `0 < d < ⌊n / 2⌋` — the code guard is
`d > 0 && d < (clips.len() / 2) as i64`, which for odd `n` is strictly
stronger than the claimed `2·d < n` (see the counterexample at `n = 3`,
`d = 1`); any negative `d` is rejected, and a request combining a nonzero
preset with a nonzero discard is always rejected.  Construction happens
before any frame is produced, so rejection precedes any output write. -/
theorem c5_validation_amended (n : ℕ) (d : ℤ) (preset : Option ℤ)
    (hn : 1 ≤ n) (hp : preset = none ∨ preset = some 0) :
    (except_ok (create_mean n preset (some d)) = true ↔
      d = 0 ∨ (0 < d ∧ d < ((n / 2 : ℕ) : ℤ))) ∧
    (∀ p dd : ℤ, p ≠ 0 → dd ≠ 0 →
      except_ok (create_mean n (some p) (some dd)) = false) := by
  have hn0 : ¬ n = 0 := by omega
  constructor
  · rcases hp with rfl | rfl <;>
      · unfold create_mean
        rw [if_neg hn0]
        dsimp only
        split_ifs <;> simp [except_ok] <;> omega
  · intro p dd hpne hdne
    unfold create_mean
    rw [if_neg hn0]
    dsimp only
    rcases eq_or_ne p 0 with rfl | _
    · exact absurd rfl hpne
    · simp only [if_neg hpne, if_neg hdne]
      rfl

/-- C5 counterexample: with 3 clips and `discard = 1` the claimed acceptance
condition holds (`1 ≥ 0` and `2·1 < 3`), yet `create_mean` rejects the
request, because its guard demands `d < 3 / 2 = 1` in integer division. -/
theorem c5_validation_counterexample :
    except_ok (create_mean 3 none (some 1)) = false ∧
    (0 : ℤ) ≤ 1 ∧ 2 * 1 < (3 : ℤ) :=
  ⟨rfl, by decide, by decide⟩

/-- C5 witness: the amended validation theorem at `n = 6`: `discard = 2` is
accepted without a preset and rejected in combination with preset 1. -/
theorem c5_validation_witness :
    except_ok (create_mean 6 none (some 2)) = true ∧
    except_ok (create_mean 6 (some 1) (some 2)) = false :=
  ⟨(c5_validation_amended 6 2 none (by decide) (Or.inl rfl)).1.mpr
      (Or.inr ⟨by decide, by decide⟩),
   (c5_validation_amended 6 2 none (by decide) (Or.inl rfl)).2 1 2
      (by decide) (by decide)⟩

/-- C10: every filter configuration `create_mean` accepts has at most one of
the `weights` and `discard` fields set: a constructor-built `Mean` never
carries both, so the defensive `(Some(_), Some(_))` branch of
`Mean::get_frame` is unreachable for constructor-built filters. -/
theorem c10_no_weights_and_discard (n : ℕ) (preset discard : Option ℤ)
    (r : Option Weights × Option ℕ)
    (h : create_mean n preset discard = .ok r) :
    ¬(r.1.isSome = true ∧ r.2.isSome = true) := by
  unfold create_mean at h
  split at h
  · cases h
  · rcases discard with _ | d <;> rcases preset with _ | p <;>
      dsimp only at h <;> (try split_ifs at h) <;> cases h <;> simp

/-- C10 witness: the accepted plain configuration `(none, none)` and the
accepted trimmed configuration `(none, some 2)` both avoid the
weights-and-discard combination. -/
theorem c10_no_weights_and_discard_witness :
    ¬(((none, some 2) : Option Weights × Option ℕ).1.isSome = true ∧
      ((none, some 2) : Option Weights × Option ℕ).2.isSome = true) :=
  c10_no_weights_and_discard 6 none (some 2) (none, some 2) rfl

/- ### C6: sample codec round trip (`src/common.rs`, lines 110-170) -/

/-- `u8_u8_to_f64` of the `int_to_f64!` macro: `((n as u64) << 0) as f64`.
The integer shift happens before the float cast; all shifted values in the
codec table stay below 2⁵³, so the `f64` result is exact and the rational
model is faithful. -/
def u8_u8_to_f64 (n : ℕ) : ℚ := ((n : ℕ) : ℚ)

/-- `u8_u16_to_f64`: `((n as u64) << 8) as f64`. -/
def u8_u16_to_f64 (n : ℕ) : ℚ := ((n <<< 8 : ℕ) : ℚ)

/-- `u8_u32_to_f64`: `((n as u64) << 24) as f64`. -/
def u8_u32_to_f64 (n : ℕ) : ℚ := ((n <<< 24 : ℕ) : ℚ)

/-- `u10_u8_to_f64`: `((n as u64) >> 2) as f64` (truncating integer shift). -/
def u10_u8_to_f64 (n : ℕ) : ℚ := ((n >>> 2 : ℕ) : ℚ)

/-- `u10_u16_to_f64`: `((n as u64) << 4) as f64`. -/
def u10_u16_to_f64 (n : ℕ) : ℚ := ((n <<< 4 : ℕ) : ℚ)

/-- `u12_u16_to_f64`: `((n as u64) << 2) as f64`. -/
def u12_u16_to_f64 (n : ℕ) : ℚ := ((n <<< 2 : ℕ) : ℚ)

/-- `u16_u16_to_f64`: `((n as u64) << 0) as f64`. -/
def u16_u16_to_f64 (n : ℕ) : ℚ := ((n : ℕ) : ℚ)

/-- `u32_u32_to_f64`: `((n as u64) << 0) as f64`. -/
def u32_u32_to_f64 (n : ℕ) : ℚ := ((n : ℕ) : ℚ)

/-- The `f64_to_int!` macro: `n as $int`, a Rust float-to-unsigned cast,
which truncates toward zero and saturates to the target range (negative
values become 0, values beyond the maximum become the maximum). -/
def f64_to_int (width : ℕ) (n : ℚ) : ℕ :=
  min (2 ^ width - 1) (max 0 ⌊n⌋).toNat

/-- `f64_to_u8` from `f64_to_int! { f64_to_u8<u8>; ... }`. -/
def f64_to_u8 : ℚ → ℕ := f64_to_int 8

/-- `f64_to_u16` from `f64_to_int!`. -/
def f64_to_u16 : ℚ → ℕ := f64_to_int 16

/-- `f64_to_u32` from `f64_to_int!`. -/
def f64_to_u32 : ℚ → ℕ := f64_to_int 32

/-- `f64_to_int` on an in-range natural is the identity. -/
theorem f64_to_int_natCast (w m : ℕ) (h : m < 2 ^ w) :
    f64_to_int w ((m : ℕ) : ℚ) = m := by
  unfold f64_to_int
  rw [Int.floor_natCast, max_eq_right (Int.natCast_nonneg m), Int.toNat_natCast]
  omega

/-- C6 (amended): the integer codec round trip is the identity exactly for
the kinds whose conversion shift is zero (8-, 16- and 32-bit samples decoded
into the domain of their own width); for the scaled kinds the codec has no
inverse-scaling writer — re-encoding a 10-bit (resp. 12-bit) sample through
the 16-bit-domain pair returns `16·x` (resp. `4·x`), not `x`.  (The float
kinds are lossless widen/narrow conversions and lie outside this integer
model.) -/
theorem c6_codec_roundtrip_amended (n : ℕ) :
    (n < 2 ^ 8 → f64_to_u8 (u8_u8_to_f64 n) = n) ∧
    (n < 2 ^ 16 → f64_to_u16 (u16_u16_to_f64 n) = n) ∧
    (n < 2 ^ 32 → f64_to_u32 (u32_u32_to_f64 n) = n) ∧
    (n < 2 ^ 10 → f64_to_u16 (u10_u16_to_f64 n) = 16 * n) ∧
    (n < 2 ^ 12 → f64_to_u16 (u12_u16_to_f64 n) = 4 * n) := by
  refine ⟨fun h => f64_to_int_natCast 8 n h,
    fun h => f64_to_int_natCast 16 n h,
    fun h => f64_to_int_natCast 32 n h,
    fun h => ?_, fun h => ?_⟩
  · unfold u10_u16_to_f64
    rw [show f64_to_u16 = f64_to_int 16 from rfl,
      f64_to_int_natCast 16 (n <<< 4) (by omega)]
    omega
  · unfold u12_u16_to_f64
    rw [show f64_to_u16 = f64_to_int 16 from rfl,
      f64_to_int_natCast 16 (n <<< 2) (by omega)]
    omega

/-- C6 counterexample: re-encoding the decoded 10-bit sample 1 through the
16-bit-domain codec pair returns 16, not 1 — the codec never applies the
inverse scaling, so `fromCanonical(toCanonical(x)) = x` fails for the scaled
kinds. -/
theorem c6_codec_roundtrip_counterexample :
    f64_to_u16 (u10_u16_to_f64 1) = 16 ∧ (16 : ℕ) ≠ 1 := by
  constructor
  · rw [show u10_u16_to_f64 1 = (((16 : ℕ) : ℚ)) from rfl,
      show f64_to_u16 = f64_to_int 16 from rfl]
    exact f64_to_int_natCast 16 16 (by omega)
  · decide

/-- C6 witness: the amended round-trip theorem at 8-bit sample 200 and
10-bit sample 3. -/
theorem c6_codec_roundtrip_witness :
    f64_to_u8 (u8_u8_to_f64 200) = 200 ∧
    f64_to_u16 (u10_u16_to_f64 3) = 16 * 3 :=
  ⟨(c6_codec_roundtrip_amended 200).1 (by decide),
   (c6_codec_roundtrip_amended 3).2.2.2.1 (by decide)⟩

/- ### C7: degenerate weighted aggregate (`Mean::get_frame`, weighted path) -/

/-- One source frame as seen by `Mean::get_frame`: its `_PictType` first
byte (absent when the host supplies none) and one row of samples in the
rational model of the canonical domain. -/
structure SrcFrame where
  pictType : Option ℕ
  row : List ℚ

/-- The per-pixel source column: the label byte and sample value of every
source at pixel index `i`. -/
def frame_srcs (frames : List SrcFrame) (i : ℕ) : List (Option ℕ × ℚ) :=
  frames.map fun f => (f.pictType, f.row.getD i 0)

/-- The output row width, taken from the first clip (`self.clips[0].info()`
in `Mean::get_frame`; all clips share the same resolution by
`check_clips`). -/
def out_width (frames : List SrcFrame) : ℕ :=
  (frames.headD ⟨none, []⟩).row.length

/-- One output row of `Mean::weighted_mean`. -/
def weighted_mean_row (w : Weights) (frames : List SrcFrame) : List ℚ :=
  (List.range (out_width frames)).map fun i =>
    weighted_mean_pixel w (frame_srcs frames i)

/-- One output row of `Mean::mean_float`. -/
def mean_float_row (frames : List SrcFrame) : List ℚ :=
  (List.range (out_width frames)).map fun i =>
    mean_float_pixel ((frame_srcs frames i).map Prod.snd)

/-- One output row of `Mean::mean_float_discard`. -/
def mean_float_discard_row (frames : List SrcFrame) (d : ℕ) : List ℚ :=
  (List.range (out_width frames)).map fun i =>
    mean_float_discard_pixel ((frame_srcs frames i).map Prod.snd) d

/-- The `(self.weights, self.discard)` dispatch of `Mean::get_frame`
(`src/mean.rs`, lines 271-301), for one output row in the rational model
(the per-depth `match` on the sample format selects between kernels that
this model collapses; the integer kernels are modelled separately above).
The only error exits of `get_frame` are the unsupported-format arms, the
missing-source-frame propagation, and the defensive `(Some(_), Some(_))`
arm; the three computation arms return the fully written row
unconditionally — there is no finiteness or degeneracy check anywhere in
the weighted path. -/
def mean_get_frame (weights : Option Weights) (discard : Option ℕ)
    (frames : List SrcFrame) : Except String (List ℚ) :=
  match weights, discard with
  | some w, none => .ok (weighted_mean_row w frames)
  | none, some d => .ok (mean_float_discard_row frames d)
  | none, none => .ok (mean_float_row frames)
  | some _, some _ => .error "Tried to use weighting and discard. This should not be possible."

/-- C7 (amended): the weighted path of `Mean::get_frame` performs no
degeneracy check: it returns a fully written output (`Ok`) for every weight
triple, including one whose effective weights sum to zero (the rational
model writes `weighted_sum * (1/0) = 0` where IEEE `f64` would write a
non-finite value — see the counterexample); however, every weight triple
`create_mean` can construct is one of the three presets, whose entries and
the default label weight are all ≥ 1, so the effective weight sum of a
non-empty source set is positive and the degenerate case is unreachable for
constructor-built filters. -/
theorem c7_degenerate_weights_amended (w : Weights) (frames : List SrcFrame)
    (hne : frames ≠ [])
    (hpreset : w ∈ [presetWeights1, presetWeights2, presetWeights3]) :
    (∀ w2 : Weights, ∀ fs : List SrcFrame,
        except_ok (mean_get_frame (some w2) none fs) = true) ∧
    (∀ p : ℕ, 1 ≤ pict_weight w p) ∧
    0 < (frames.map fun f => pict_weight w (pict_byte f.pictType)).sum := by
  have hone : ∀ p : ℕ, 1 ≤ pict_weight w p := by
    intro p
    fin_cases hpreset <;> unfold pict_weight <;> split_ifs <;>
      norm_num [presetWeights1, presetWeights2, presetWeights3]
  refine ⟨fun _ _ => rfl, hone, ?_⟩
  have hlen : (0 : ℚ) < (frames.length : ℚ) := by
    exact_mod_cast List.length_pos.mpr hne
  have hsum : ((frames.map fun _ => (1 : ℚ)).sum ≤
      (frames.map fun f => pict_weight w (pict_byte f.pictType)).sum) :=
    List.sum_le_sum fun f _ => hone _
  simp only [List.map_const', List.sum_replicate, nsmul_eq_mul, mul_one] at hsum
  exact lt_of_lt_of_le hlen hsum

/-- C7 counterexample: a single source labeled `I` under the degenerate
weight triple `[0, 0, 0]` has effective weight sum 0, yet `get_frame`
returns `Ok` with the pixel written (value 0 in the rational model of
`weighted_sum * (1.0 / 0.0)`); nothing surfaces an error to the caller. -/
theorem c7_degenerate_weights_counterexample :
    (([⟨some 73, [5]⟩] : List SrcFrame).map fun f =>
        pict_weight ⟨0, 0, 0⟩ (pict_byte f.pictType)).sum = 0 ∧
    except_ok (mean_get_frame (some ⟨0, 0, 0⟩) none [⟨some 73, [5]⟩]) = true ∧
    mean_get_frame (some ⟨0, 0, 0⟩) none [⟨some 73, [5]⟩] = .ok [0] := by
  refine ⟨?_, rfl, ?_⟩
  · simp [pict_weight, pict_byte]
  · simp [mean_get_frame, weighted_mean_row, weighted_mean_pixel, frame_srcs,
      out_width, pict_weight, pict_byte, List.range_succ]

/-- C7 witness: the amended theorem at preset 1 with one `I`-labeled
source: the weighted path returns `Ok` and the effective weight sum is
positive. -/
theorem c7_degenerate_weights_witness :
    except_ok (mean_get_frame (some presetWeights1) none [⟨some 73, [5]⟩]) = true ∧
    0 < (([⟨some 73, [5]⟩] : List SrcFrame).map fun f =>
        pict_weight presetWeights1 (pict_byte f.pictType)).sum := by
  have h := c7_degenerate_weights_amended presetWeights1 [⟨some 73, [5]⟩]
    (by simp) (by simp)
  exact ⟨h.1 presetWeights1 [⟨some 73, [5]⟩], h.2.2⟩

/- ### C8: single-source identity -/

/-- C8 (amended): with exactly one source, the plain integer and float
means, the weighted mean (for any weight triple whose selected weight is
nonzero — every constructor preset satisfies this), and the trimmed mean
with `discard = 0` write the source's own sample value at every coordinate,
and `create_mean` rejects every positive discard for a single clip (the
guard `d < 1 / 2 = 0` can never hold); the `Median` modes, however, write
the source's own value only at the first coordinate of the frame — because
their `values` buffer is never cleared, every later coordinate receives the
median of all samples seen so far (see the counterexample). -/
theorem c8_single_source (depth internal : ℕ) (v : ℕ) (q : ℚ) (w : Weights)
    (prop : Option ℕ) (hdi : depth < internal) (hv : v < 2 ^ depth)
    (hw : pict_weight w (pict_byte prop) ≠ 0) :
    mean_int_pixel depth internal [v] = v ∧
    mean_float_pixel [q] = q ∧
    weighted_mean_pixel w [(prop, q)] = q ∧
    median_int_row depth internal [[v]] = [v] ∧
    median_float_row [[q]] = [q] ∧
    mean_int_discard_pixel depth internal [v] 0 = v ∧
    mean_float_discard_pixel [q] 0 = q ∧
    (∀ d : ℤ, 0 < d → except_ok (create_mean 1 none (some d)) = false) := by
  have hvi : v < 2 ^ internal :=
    lt_of_lt_of_le hv (Nat.pow_le_pow_right (by omega) (le_of_lt hdi))
  have hone : 1 % 2 ^ internal = 1 :=
    Nat.mod_eq_of_lt (Nat.one_lt_two_pow_iff.mpr (by omega))
  refine ⟨?_, ?_, ?_, ?_, ?_, ?_, ?_, ?_⟩
  · unfold mean_int_pixel
    simp [hone, Nat.mod_eq_of_lt hvi, Nat.mod_eq_of_lt hv]
  · unfold mean_float_pixel
    simp
  · unfold weighted_mean_pixel
    simp only [List.map_cons, List.map_nil, List.zip_cons_cons, List.zip_nil_right,
      List.sum_cons, List.sum_nil, add_zero]
    rw [mul_one_div, mul_div_assoc, div_self hw, mul_one]
  · unfold median_int_row median_int_pixel
    simp [List.range_succ, List.insertionSort, List.orderedInsert, Nat.mod_eq_of_lt hv]
  · unfold median_float_row median_float_pixel
    simp [List.range_succ, List.insertionSort, List.orderedInsert]
  · unfold mean_int_discard_pixel trim_drain
    simp [hone, List.insertionSort, List.orderedInsert,
      Nat.mod_eq_of_lt hvi, Nat.mod_eq_of_lt hv]
  · unfold mean_float_discard_pixel trim_drain_q
    simp [List.insertionSort, List.orderedInsert]
  · intro d hd
    unfold create_mean
    rw [if_neg (by decide : ¬(1 : ℕ) = 0)]
    dsimp only
    rw [if_neg (by omega : ¬(0 < d ∧ d < ((1 / 2 : ℕ) : ℤ))),
      if_neg (by omega : ¬d = 0)]
    rfl

/-- C8 counterexample: a single 8-bit source whose row is `[20, 40]`: the
never-cleared `values` buffer makes `median_int!` write
`(20 + 40) >> 1 = 30` at the second coordinate instead of the source's own
`40`, refuting the claim that `Median` returns the single source's value
unchanged at every coordinate. -/
theorem c8_single_source_counterexample :
    median_int_row 8 16 [[20], [40]] = [20, 30] ∧ (30 : ℕ) ≠ 40 :=
  ⟨by decide, by decide⟩

/-- C8 witness: the amended single-source theorem at the 8-bit sample 7, the
rational sample 3/2 under preset 1 with an unknown label (weight 1), and a
rejected `discard = 1` request on one clip. -/
theorem c8_single_source_witness :
    mean_int_pixel 8 16 [7] = 7 ∧
    weighted_mean_pixel presetWeights1 [(some 85, 3 / 2)] = 3 / 2 ∧
    median_int_row 8 16 [[7]] = [7] ∧
    mean_int_discard_pixel 8 16 [7] 0 = 7 ∧
    except_ok (create_mean 1 none (some 1)) = false := by
  have h := c8_single_source 8 16 7 (3 / 2) presetWeights1 (some 85)
    (by decide) (by decide) (by simp [pict_weight, pict_byte])
  exact ⟨h.1, h.2.2.1, h.2.2.2.1, h.2.2.2.2.2.1, h.2.2.2.2.2.2.2 1 (by decide)⟩

/- ### C9: parallel/sequential equivalence of the plane driver -/

/-- A coordinate of the output frame: plane, row, column. -/
abbrev Coord : Type := ℕ × ℕ × ℕ

/-- One store into the output frame state. -/
def write_at (st : Coord → ℕ) (c : Coord) (v : ℕ) : Coord → ℕ :=
  fun c2 => if c2 = c then v else st c2

/-- Execute the writes of the plane driver in the given order: every write
at coordinate `c` stores `f c`, the pure per-pixel aggregate of the source
samples of column `c` — the loop body of `loop_frame_func!` mutates nothing
except its own output slot and reads only the source rows, so its effect is
exactly this store. -/
def run_writes (f : Coord → ℕ) (order : List Coord) (st : Coord → ℕ) : Coord → ℕ :=
  order.foldl (fun acc c => write_at acc c (f c)) st

/-- The row-major coordinate enumeration of the sequential driver of
`loop_frame_func!` (`src/common.rs`, lines 27-39 and 70-81): plane index,
then row within the plane's height, then column. -/
def seq_order (planes : ℕ) (height width : ℕ → ℕ) : List Coord :=
  (List.range planes).flatMap fun p =>
    (List.range (height p)).flatMap fun r =>
      (List.range (width p)).map fun i => (p, r, i)

/-- The sequential variant of `loop_frame_func!`: writes executed in
row-major order. -/
def loop_frame_func_seq (f : Coord → ℕ) (planes : ℕ) (height width : ℕ → ℕ)
    (init : Coord → ℕ) : Coord → ℕ :=
  run_writes f (seq_order planes height width) init

/-- The parallel variant of `loop_frame_func!` (`src/common.rs`, lines
41-63 and 83-104): rayon distributes the same per-coordinate writes over
planes, rows and columns with no shared mutable state and disjoint output
slots, so its observable effect is the same writes executed in some
scheduler-dependent order — a permutation of the sequential enumeration. -/
def loop_frame_func_par (f : Coord → ℕ) (schedule : List Coord)
    (init : Coord → ℕ) : Coord → ℕ :=
  run_writes f schedule init

/-- Running the writes leaves `f c` at every covered coordinate and the
initial contents elsewhere, regardless of order. -/
theorem run_writes_apply (f : Coord → ℕ) (order : List Coord)
    (st : Coord → ℕ) (c : Coord) :
    run_writes f order st c = if c ∈ order then f c else st c := by
  induction order generalizing st with
  | nil => simp [run_writes]
  | cons a t ih =>
    rw [show run_writes f (a :: t) st = run_writes f t (write_at st a (f a)) from rfl]
    rw [ih]
    by_cases hct : c ∈ t
    · simp [hct]
    · by_cases hca : c = a
      · subst hca
        simp [hct, write_at]
      · simp [hct, hca, write_at]

/-- C9: the parallel fan-out of `loop_frame_func!`, modelled as the same
per-coordinate pure writes executed in any permutation of the sequential
row-major order, produces an output identical to the sequential driver —
each output sample is a pure function of the source samples at its own
coordinate, and distinct coordinates write disjoint slots. -/
theorem c9_parallel_sequential_equiv (f : Coord → ℕ) (planes : ℕ)
    (height width : ℕ → ℕ) (init : Coord → ℕ) (schedule : List Coord)
    (hperm : schedule.Perm (seq_order planes height width)) :
    loop_frame_func_par f schedule init =
      loop_frame_func_seq f planes height width init := by
  funext c
  unfold loop_frame_func_par loop_frame_func_seq
  rw [run_writes_apply, run_writes_apply]
  by_cases hc : c ∈ schedule
  · rw [if_pos hc, if_pos (hperm.mem_iff.mp hc)]
  · rw [if_neg hc, if_neg fun hc2 => hc (hperm.mem_iff.mpr hc2)]

/-- C9 witness: a 1-plane, 1-row, 2-column frame whose per-pixel function is
the 8-bit plain mean of the column's sources, with the parallel schedule
running the two pixels in reverse order. -/
theorem c9_parallel_sequential_equiv_witness :
    loop_frame_func_par (fun c => mean_int_pixel 8 16 [c.2.2, 20, 30])
        [(0, 0, 1), (0, 0, 0)] (fun _ => 0) =
      loop_frame_func_seq (fun c => mean_int_pixel 8 16 [c.2.2, 20, 30])
        1 (fun _ => 1) (fun _ => 2) (fun _ => 0) :=
  c9_parallel_sequential_equiv _ 1 _ _ _ _ (by decide)

end VSAverage
